import Mathlib

/-!
Shallow embedding of the lighthouse CLI supervisor (src/unnamed/part_000)
and of the ColorContrast audit (src/lighthouse-core/audits/color-contrast.js).

The CLI module is single-threaded JavaScript built from promise chains; we
embed each function as a pure Lean function that returns, besides its value,
the ordered list of observable events its promise chain produces.  Promise
settlement is `Except` (resolve / reject); a promise that can also remain
pending forever is wrapped in `Option` (`none` = never settles).
-/

namespace LHCli

/-- Exit code constants from the top of the CLI module. -/
def ERROR_EXIT_CODE : Nat := 130

def RUNTIME_ERROR_CODE : Nat := 1

def PROTOCOL_TIMEOUT_EXIT_CODE : Nat := 67

/-- `interface LightHouseError extends Error { code?: string }`:
an `Error` value (message, optional stack) with an optional `code` marker. -/
structure LightHouseError where
  code : Option String
  message : String
  stack : Option String
deriving DecidableEq, Repr

/-- `showConnectionError` prints a diagnostic and exits with the generic
runtime error code; we record the exit code it passes to `process.exit`. -/
def showConnectionError : Nat := RUNTIME_ERROR_CODE

/-- `showRuntimeError` prints the error (and stack, when present) and exits
with the generic runtime error code. -/
def showRuntimeError (_err : LightHouseError) : Nat := RUNTIME_ERROR_CODE

/-- `showProtocolTimeoutError` prints a diagnostic and exits with the
protocol-timeout exit code. -/
def showProtocolTimeoutError : Nat := PROTOCOL_TIMEOUT_EXIT_CODE

/-- `handleError`: dispatch on the error's string `code` marker, in the fixed
order written in the source, to one of the three exiting helpers.  The value
is the process exit code produced. -/
def handleError (err : LightHouseError) : Nat :=
  if err.code = some "ECONNREFUSED" then showConnectionError
  else if err.code = some "CRI_TIMEOUT" then showProtocolTimeoutError
  else showRuntimeError err

/-- The spec's ErrorClassifier categories (§4.6). -/
inductive ErrorCategory where
  | connectionRefused
  | protocolTimeout
  | runtimeError
deriving DecidableEq, Repr

/-- The category `handleError` routes an error to: same marker tests, same
fixed priority as the source's if/else chain. -/
def classify (err : LightHouseError) : ErrorCategory :=
  if err.code = some "ECONNREFUSED" then .connectionRefused
  else if err.code = some "CRI_TIMEOUT" then .protocolTimeout
  else .runtimeError

/-- Exit code of each classifier category, per the spec's mapping table. -/
def categoryExitCode : ErrorCategory → Nat
  | .connectionRefused => RUNTIME_ERROR_CODE
  | .protocolTimeout => PROTOCOL_TIMEOUT_EXIT_CODE
  | .runtimeError => RUNTIME_ERROR_CODE

/-!
### CleanupRegistry

`cleanup.doCleanup() { return Promise.all(this.fns.map((c) => c())); }`

Each registered action is a thunk whose invocation yields a settled promise,
modelled as `Except`.  `Array.prototype.map` invokes every thunk (it is
strict and synchronous), and `Promise.all` resolves with the list of values
when every constituent resolves, and rejects with the first rejection
(in list order, for already-settled promises) otherwise.
-/

/-- `Promise.all` over a list of settled promises: resolves with all values,
or rejects with the first rejection in order. -/
def promiseAll {E A : Type} : List (Except E A) → Except E (List A)
  | [] => .ok []
  | .ok a :: rest =>
    match promiseAll rest with
    | .ok as => .ok (a :: as)
    | .error e => .error e
  | .error e :: _ => .error e

/-- `this.fns.map((c) => c())`: invoke every registered action once, in
registration order, collecting each settled outcome. -/
def mapInvoke {E A : Type} (fns : List (Unit → Except E A)) : List (Except E A) :=
  fns.map (fun c => c ())

/-- `cleanup.doCleanup()`. -/
def doCleanup {E A : Type} (fns : List (Unit → Except E A)) : Except E (List A) :=
  promiseAll (mapInvoke fns)

/-!
### The run pipeline

`initPort`, `lighthouseRun`, `launchChromeAndRun` and `run` are embedded as
pure functions over an environment `Env` that fixes every external oracle:
the ephemeral port the OS would assign, the debugger-readiness probe, the
Chrome launch outcome, the opaque per-target job (`lighthouse(...)`), the
result writer (`Printer.write`, external to src), and the time at which a
SIGINT is delivered.  Each function returns the ordered list of observable
`Event`s its promise chain performs, alongside its settled value.
-/

/-- The opaque result document produced by the per-target job. -/
structure Results where
  raw : Nat
deriving DecidableEq, Repr

/-- The fields of `cliFlags` the supervisor core reads or writes. -/
structure Flags where
  port : Nat
  skipAutolaunch : Bool
  selectChrome : Bool
  output : String
  outputPath : String
deriving DecidableEq, Repr

/-- Observable events of one run, in program order. -/
inductive Event where
  /-- `server.listen(0)`: the ephemeral probing endpoint is bound. -/
  | serverListen
  /-- `flags.port = server.address().port`: the assigned port is read back. -/
  | portAssigned (p : Nat)
  /-- `server.close()`: the probing endpoint is released. -/
  | serverClosed
  /-- `process.on('SIGINT', ...)`: the interrupt listener is installed. -/
  | sigintRegistered
  /-- `cleanup.register(() => launcher.kill())`. -/
  | cleanupRegistered
  /-- `launcher.isDebuggerReady()` settles, with the given success value. -/
  | probe (ready : Bool)
  /-- `launcher.run()` succeeds: a managed Chrome was started. -/
  | chromeLaunched
  /-- `lighthouse(address, flags, config)` is invoked. -/
  | jobInvoked (addr : String)
  /-- The awaited `Printer.write(results, outputMode, outputPath)` settled
  successfully for this address. -/
  | writeDone (addr : String) (mode : String) (path : String)
  /-- The fire-and-forget `Printer.write(results, 'html', filename)` was
  issued; its settled outcome (`ok`) is discarded by the source. -/
  | htmlWriteIssued (addr : String) (filename : String) (ok : Bool)
  /-- The direct `.then(() => launcher.kill())` on the success path. -/
  | killDirect
  /-- `cleanup.doCleanup()` is invoked on `n` registered actions and
  awaited. -/
  | runAllInvoked (n : Nat)
  /-- `process.exit(code)`. -/
  | exited (code : Nat)
deriving DecidableEq, Repr

/-- External oracles of one run. -/
structure Env where
  /-- Port the OS assigns to `server.listen(0)`; `none` when the
  environment never assigns one (the `listening` event never fires). -/
  allocPort : Option Nat
  /-- Outcome of `launcher.isDebuggerReady()`. -/
  debuggerReady : Bool
  /-- Outcome of `launcher.run()`. -/
  launchResult : Except LightHouseError Unit
  /-- The opaque per-target job `lighthouse(address, flags, config)`. -/
  job : String → Except LightHouseError Results
  /-- The external result writer `Printer.write(results, mode, path)`,
  resolving with a possibly transformed results document. -/
  writeRes : Results → String → String → Except LightHouseError Results
  /-- When `some t`: a SIGINT is delivered after `t` observable events of
  the run have occurred.  When `none`: no SIGINT fires before the run is
  over. -/
  sigintAt : Option Nat

/-- Modelled from the spec: `Printer.OutputMode[Printer.OutputMode.pretty]`,
the default interactive output mode name, from the external `./printer`
module (not under src). -/
def prettyMode : String := "pretty"

/-- Modelled from the spec: `assetSaver.getFilenamePrefix({url: address})`
from the external asset-saver module (not under src) — "a stable
slug/prefix function of the address, not random". -/
def getFilenamePrefixFor (url : String) : String :=
  String.map (fun c => if c = '/' then '_' else c) url

/-- The secondary report filename built by `lighthouseRun`. -/
def htmlFilename (addr : String) : String :=
  "./" ++ getFilenamePrefixFor addr ++ ".report.html"

/-- `initPort(flags)`: when the requested port is nonzero, resolve at once
with the flags untouched and no I/O.  When it is zero, bind an ephemeral
endpoint; if the OS assigns a port, read it back into `flags.port`, close
the endpoint and resolve; if it never does, the `listening` event never
fires and the promise never settles (`reject` is never called in the
source, so no rejection is possible). -/
def initPort (env : Env) (f : Flags) : List Event × Option Flags :=
  if f.port ≠ 0 then ([], some f)
  else
    match env.allocPort with
    | some q => ([.serverListen, .portAssigned q, .serverClosed], some { f with port := q })
    | none => ([.serverListen], none)

/-- `lighthouseRun(addresses, config, flags)`: `addresses.shift()` removes
the head; a falsy head (absent, or the empty string) resolves at once.
Otherwise run the job, await the primary write, in pretty mode issue the
secondary HTML write without awaiting it, and recurse.  Returns the events,
the final (mutated) address list, and the settled outcome. -/
def lighthouseRun (env : Env) (outputMode : String) (outputPath : String) :
    List String → List Event × List String × Except LightHouseError Unit
  | [] => ([], [], .ok ())
  | addr :: rest =>
    if addr = "" then ([], rest, .ok ())
    else
      match env.job addr with
      | .error e => ([.jobInvoked addr], rest, .error e)
      | .ok results =>
        match env.writeRes results outputMode outputPath with
        | .error e => ([.jobInvoked addr], rest, .error e)
        | .ok results2 =>
          let side :=
            if outputMode = prettyMode then
              [Event.htmlWriteIssued addr (htmlFilename addr)
                (env.writeRes results2 "html" (htmlFilename addr)).isOk]
            else []
          let r := lighthouseRun env outputMode outputPath rest
          (.jobInvoked addr :: .writeDone addr outputMode outputPath :: side ++ r.1,
            r.2.1, r.2.2)

/-- `launchChromeAndRun(addresses, config, flags)`: resolve the port (again),
create the launcher, register its kill with the cleanup registry, probe the
debugger, launch Chrome only when the probe fails, then run the sequence and
finally kill the launcher directly.  `none` = the chain never settles
(inner `initPort` pending). -/
def launchChromeAndRun (env : Env) (f : Flags) (urls : List String) :
    List Event × Option (Flags × List String × Except LightHouseError Unit) :=
  let ip := initPort env f
  match ip.2 with
  | none => (ip.1, none)
  | some f1 =>
    let pre := ip.1 ++ [Event.cleanupRegistered, Event.probe env.debuggerReady]
    if env.debuggerReady then
      let r := lighthouseRun env f1.output f1.outputPath urls
      match r.2.2 with
      | .error e => (pre ++ r.1, some (f1, r.2.1, .error e))
      | .ok _ => (pre ++ r.1 ++ [Event.killDirect], some (f1, r.2.1, .ok ()))
    else
      match env.launchResult with
      | .error e => (pre, some (f1, urls, .error e))
      | .ok _ =>
        let r := lighthouseRun env f1.output f1.outputPath urls
        match r.2.2 with
        | .error e => (pre ++ [Event.chromeLaunched] ++ r.1, some (f1, r.2.1, .error e))
        | .ok _ =>
          (pre ++ [Event.chromeLaunched] ++ r.1 ++ [Event.killDirect],
            some (f1, r.2.1, .ok ()))

/-- Final state of one whole run. -/
inductive Outcome where
  /-- The pipeline resolved; the process drains and exits 0 implicitly. -/
  | success
  /-- The SIGINT branch ran: cleanup then `process.exit(130)`. -/
  | interrupted
  /-- `handleError` ran `process.exit` with the given code. -/
  | errored (code : Nat)
  /-- A SIGINT was delivered while no listener was installed: the default
  signal disposition terminates the process; no code path of this module
  runs. -/
  | killedBySignal
  /-- Nothing ever settles and no signal arrives: the process idles
  forever. -/
  | hung
deriving DecidableEq, Repr

/-- Events appended after the pipeline settles: nothing on success (exit 0
is implicit), `process.exit(handleError e)` on error. -/
def settleTail : Except LightHouseError Unit → List Event
  | .ok _ => []
  | .error e => [Event.exited (handleError e)]

/-- Outcome of a settled pipeline result. -/
def settleOutcome : Except LightHouseError Unit → Outcome
  | .ok _ => .success
  | .error e => .errored (handleError e)

/-- The SIGINT branch of the race: on the events `pre` that had occurred,
`cleanup.doCleanup()` is invoked on every action registered so far and
awaited (its own failure is caught and logged), then `process.exit(130)`. -/
def interruptedResult (pre : List Event) : List Event × Outcome :=
  (pre ++ [Event.runAllInvoked (pre.count Event.cleanupRegistered),
           Event.exited ERROR_EXIT_CODE], .interrupted)

/-- The `skipAutolaunch` branch of `run`: `lighthouseRun(...).catch(handleError)`
with no SIGINT listener installed; a SIGINT delivered before the natural
event sequence is over kills the process by default disposition. -/
def runSkipPath (env : Env) (t1 : List Event) (f1 : Flags) (urls : List String) :
    List Event × Outcome :=
  let r := lighthouseRun env f1.output f1.outputPath urls
  let tr := t1 ++ r.1 ++ settleTail r.2.2
  match env.sigintAt with
  | some t =>
    if t < tr.length then (tr.take t, .killedBySignal) else (tr, settleOutcome r.2.2)
  | none => (tr, settleOutcome r.2.2)

/-- The auto-launch branch of `run`: install the SIGINT listener (the
`isSigint` executor runs synchronously, before `launchChromeAndRun` is
invoked), then race the pipeline against the interrupt.  A SIGINT delivered
during the outer `initPort` (before `t1.length` events) finds no listener
and kills the process; one delivered after the listener but before the
pipeline settles takes the cleanup-then-exit-130 branch; a later one has no
effect because the race promise is already settled. -/
def runLaunchPath (env : Env) (t1 : List Event) (f1 : Flags) (urls : List String) :
    List Event × Outcome :=
  let lcr := launchChromeAndRun env f1 urls
  match lcr.2 with
  | none =>
    match env.sigintAt with
    | some t =>
      if t < t1.length then (t1.take t, .killedBySignal)
      else interruptedResult ((t1 ++ [Event.sigintRegistered] ++ lcr.1).take t)
    | none => (t1 ++ [Event.sigintRegistered] ++ lcr.1, .hung)
  | some s =>
    match env.sigintAt with
    | some t =>
      if t < t1.length then (t1.take t, .killedBySignal)
      else if t < t1.length + 1 + lcr.1.length then
        interruptedResult ((t1 ++ [Event.sigintRegistered] ++ lcr.1).take t)
      else (t1 ++ [Event.sigintRegistered] ++ lcr.1 ++ settleTail s.2.2,
        settleOutcome s.2.2)
    | none =>
      (t1 ++ [Event.sigintRegistered] ++ lcr.1 ++ settleTail s.2.2, settleOutcome s.2.2)

/-- `run()`: outer `initPort(cliFlags)`, then either the bare sequence
(`skipAutolaunch`) or the cancellation race around `launchChromeAndRun`. -/
def run (env : Env) (f : Flags) (urls : List String) : List Event × Outcome :=
  let ip := initPort env f
  match ip.2 with
  | none =>
    match env.sigintAt with
    | some t => (ip.1.take t, .killedBySignal)
    | none => (ip.1, .hung)
  | some f1 =>
    if f1.skipAutolaunch then runSkipPath env ip.1 f1 urls
    else runLaunchPath env ip.1 f1 urls

/-- Is this event a job invocation? -/
def isJobEvent : Event → Bool
  | .jobInvoked _ => true
  | _ => false

/-- Is this event a `cleanup.doCleanup()` invocation? -/
def isRunAllEvent : Event → Bool
  | .runAllInvoked _ => true
  | _ => false

/-- Is this event a `process.exit`? -/
def isExitedEvent : Event → Bool
  | .exited _ => true
  | _ => false

/-- Job-invocation events of a trace, in order. -/
def jobEvents (tr : List Event) : List Event :=
  tr.filter isJobEvent

/-- Primary job/write backbone of a trace (job invocations and awaited
primary write completions), in order. -/
def coreEvents (tr : List Event) : List Event :=
  tr.filter (fun e =>
    match e with
    | .jobInvoked _ => true
    | .writeDone _ _ _ => true
    | _ => false)

/-- Secondary (fire-and-forget) HTML writes of a trace: address and
filename pairs, in order. -/
def htmlEvents (tr : List Event) : List (String × String) :=
  tr.filterMap (fun e =>
    match e with
    | .htmlWriteIssued a fn _ => some (a, fn)
    | _ => none)

/-- Number of `cleanup.doCleanup()` invocations recorded in a trace. -/
def countRunAll (tr : List Event) : Nat :=
  (tr.filter isRunAllEvent).length

/-- A sample environment in which every external operation succeeds and no
interrupt is ever delivered. -/
def noopEnv : Env :=
  { allocPort := some 7777
    debuggerReady := true
    launchResult := .ok ()
    job := fun _ => .ok { raw := 0 }
    writeRes := fun r _ _ => .ok r
    sigintAt := none }

/-- A sample flags record: fixed port, auto-launch path, json output. -/
def baseFlags : Flags :=
  { port := 9222
    skipAutolaunch := false
    selectChrome := false
    output := "json"
    outputPath := "stdout" }

/-- A sample error carrying no code marker. -/
def plainErr : LightHouseError :=
  { code := none, message := "boom", stack := none }

/-- A sample environment whose result writer rejects exactly on the
secondary HTML write mode and succeeds otherwise. -/
def htmlFailEnv : Env :=
  { noopEnv with
    writeRes := fun r m _ => if m = "html" then .error plainErr else .ok r }

/-- A sample environment whose job rejects exactly on the address "bad". -/
def jobFailEnv : Env :=
  { noopEnv with
    job := fun a => if a = "bad" then .error plainErr else .ok { raw := 0 } }

/-- Sample flags selecting the `skipAutolaunch` branch of `run`. -/
def skipFlags : Flags :=
  { baseFlags with skipAutolaunch := true }

end LHCli

namespace ColorContrast

/-- One node entry of an axe violation; only its presence is inspected. -/
structure AxeNode where
  snippet : String
deriving DecidableEq, Repr

/-- One axe violation entry: a rule id, a help text and the failing nodes. -/
structure AxeRule where
  id : String
  help : String
  nodes : List AxeNode
deriving DecidableEq, Repr

/-- The `Accessibility` artifact: `violations` may be absent. -/
structure Accessibility where
  violations : Option (List AxeRule)
deriving DecidableEq, Repr

/-- The artifacts object handed to the audit. -/
structure Artifacts where
  Accessibility : Accessibility
deriving DecidableEq, Repr

/-- The audit result fields the source populates (the `extendedInfo`
formatter payload belongs to the external formatter and carries the same
`rule` value). -/
structure AuditResult where
  rawValue : Bool
  debugString : String
deriving DecidableEq, Repr

/-- `ColorContrast.createDebugString(rule)`. -/
def createDebugString : Option AxeRule → String
  | none => ""
  | some rule =>
    let elementsStr := if rule.nodes.length = 1 then "element" else "elements"
    rule.help ++ " (Failed on " ++ toString rule.nodes.length ++ " " ++ elementsStr ++ ")"

/-- `ColorContrast.audit(artifacts)`: `violations || []`, find the first
entry whose id is color-contrast, pass iff none exists. -/
def audit (artifacts : Artifacts) : AuditResult :=
  let violations := artifacts.Accessibility.violations.getD []
  let rule := violations.find? (fun result => result.id = "color-contrast")
  { rawValue := rule.isNone
    debugString := createDebugString rule }

end ColorContrast

/-! ## Theorems -/

namespace LHCli

/-- `handleError` only ever exits with the generic code or the
protocol-timeout code. -/
theorem handleError_cases (e : LightHouseError) :
    handleError e = RUNTIME_ERROR_CODE ∨ handleError e = PROTOCOL_TIMEOUT_EXIT_CODE := by
  unfold handleError showConnectionError showProtocolTimeoutError showRuntimeError
  split
  · exact Or.inl rfl
  · split
    · exact Or.inr rfl
    · exact Or.inl rfl

/-- `Promise.all` on all-resolved promises resolves with one value per
constituent. -/
theorem promiseAll_ok_of {E A : Type} :
    ∀ rs : List (Except E A), (∀ r ∈ rs, r.isOk = true) →
      ∃ vals, promiseAll rs = .ok vals ∧ vals.length = rs.length := by
  intro rs
  induction rs with
  | nil => exact fun _ => ⟨[], rfl, rfl⟩
  | cons r rest ih =>
    intro h
    obtain ⟨vals, hv, hlen⟩ := ih (fun x hx => h x (List.mem_cons_of_mem r hx))
    cases r with
    | error e => simp [Except.isOk, Except.toBool] at h
    | ok a => exact ⟨a :: vals, by simp [promiseAll, hv], by simp [hlen]⟩

/-- A `Promise.all` rejection is the rejection of one of its constituents. -/
theorem promiseAll_error_mem {E A : Type} (e : E) :
    ∀ rs : List (Except E A), promiseAll rs = .error e → Except.error e ∈ rs := by
  intro rs
  induction rs with
  | nil => intro h; simp [promiseAll] at h
  | cons r rest ih =>
    intro h
    cases r with
    | error e2 =>
      simp only [promiseAll] at h
      cases h
      exact List.mem_cons_self _ _
    | ok a =>
      simp only [promiseAll] at h
      cases hrest : promiseAll rest with
      | ok vals => rw [hrest] at h; cases h
      | error e2 =>
        rw [hrest] at h
        cases h
        exact List.mem_cons_of_mem _ (ih hrest)

/-- If some constituent rejects, `Promise.all` rejects. -/
theorem promiseAll_error_of_exists {E A : Type} :
    ∀ rs : List (Except E A), (∃ r ∈ rs, r.isOk = false) →
      ∃ e, promiseAll rs = .error e := by
  intro rs
  induction rs with
  | nil => rintro ⟨r, hr, _⟩; cases hr
  | cons r rest ih =>
    rintro ⟨r2, hr2, hfail⟩
    cases r with
    | error e => exact ⟨e, rfl⟩
    | ok a =>
      rcases List.mem_cons.mp hr2 with heq | hmem
      · subst heq; simp [Except.isOk, Except.toBool] at hfail
      · obtain ⟨e, he⟩ := ih ⟨r2, hmem, hfail⟩
        exact ⟨e, by simp [promiseAll, he]⟩

/-- The claim that `runAll` never rejects is false on the source: with a
single registered action whose promise rejects, `doCleanup` (which is
`Promise.all` over the invoked actions) rejects with that failure. -/
theorem claim_cleanup_runall_cex :
    doCleanup [fun _ => (Except.error plainErr : Except LightHouseError Unit)] =
      .error plainErr ∧
    (doCleanup [fun _ => (Except.error plainErr : Except LightHouseError Unit)]).isOk
      = false := ⟨rfl, rfl⟩

/-- Amended CleanupRegistry claim: `doCleanup` invokes every registered
action exactly once, in registration order (the invoked-outcome list has
one entry per action, the i-th being the i-th action's invocation); when
every action resolves it resolves with all their values; but when some
action fails it rejects with one of the actions' failures instead of never
rejecting. -/
theorem claim_cleanup_runall {E A : Type} (fns : List (Unit → Except E A)) :
    (mapInvoke fns).length = fns.length ∧
    (∀ i (h1 : i < fns.length) (h2 : i < (mapInvoke fns).length),
      (mapInvoke fns).get ⟨i, h2⟩ = (fns.get ⟨i, h1⟩) ()) ∧
    ((∀ r ∈ mapInvoke fns, r.isOk = true) →
      ∃ vals, doCleanup fns = .ok vals ∧ vals.length = fns.length) ∧
    (∀ e, doCleanup fns = .error e → Except.error e ∈ mapInvoke fns) ∧
    ((∃ r ∈ mapInvoke fns, r.isOk = false) → ∃ e, doCleanup fns = .error e) := by
  refine ⟨by simp [mapInvoke], ?_, ?_, ?_, ?_⟩
  · intro i h1 h2
    simp [mapInvoke]
  · intro h
    obtain ⟨vals, hv, hlen⟩ := promiseAll_ok_of (mapInvoke fns) h
    exact ⟨vals, hv, by simpa [mapInvoke] using hlen⟩
  · intro e he
    exact promiseAll_error_mem e (mapInvoke fns) he
  · intro h
    exact promiseAll_error_of_exists (mapInvoke fns) h

/-- Witness: two actions, the second rejecting — `doCleanup` rejects. -/
theorem claim_cleanup_runall_witness :
    ∃ e, doCleanup [fun _ => (Except.ok 3 : Except String Nat), fun _ => .error "gone"]
      = .error e := by
  refine (claim_cleanup_runall _).2.2.2.2 ⟨Except.error "gone", ?_, rfl⟩
  simp [mapInvoke]

/-- The PortResolver claim fails on the failure path: when the requested
port is 0 and the operating environment never assigns one, the `listening`
event never fires; the executor never calls `reject` and installs no error
handler, so the returned promise never settles (`none`) — no RuntimeError
(indeed no settlement at all) is surfaced. -/
theorem claim_port_resolver_cex :
    initPort { noopEnv with allocPort := none } { baseFlags with port := 0 } =
      ([Event.serverListen], none) ∧
    (initPort { noopEnv with allocPort := none } { baseFlags with port := 0 }).2
      = none := ⟨rfl, rfl⟩

/-- Amended PortResolver claim: a positive requested port is returned
unchanged with no I/O events; requested port 0 binds the ephemeral
endpoint, reads back the assigned port, releases the endpoint and resolves
with that (positive) port written into the flags; and when the environment
never assigns a port the promise performs the bind and then never settles
(no error is surfaced by this layer). -/
theorem claim_port_resolver (env : Env) (f : Flags) :
    (0 < f.port → initPort env f = ([], some f)) ∧
    (∀ q, f.port = 0 → env.allocPort = some q → 0 < q →
      initPort env f =
        ([Event.serverListen, Event.portAssigned q, Event.serverClosed],
          some { f with port := q }) ∧
      0 < ({ f with port := q } : Flags).port) ∧
    (f.port = 0 → env.allocPort = none →
      initPort env f = ([Event.serverListen], none)) := by
  refine ⟨?_, ?_, ?_⟩
  · intro h
    simp [initPort, Nat.pos_iff_ne_zero.mp h]
  · intro q h0 halloc hq
    constructor
    · simp [initPort, h0, halloc]
    · simpa using hq
  · intro h0 halloc
    simp [initPort, h0, halloc]

/-- Witness for the PortResolver theorem at concrete inputs: port 9222 is
returned unchanged; port 0 resolves to the environment-assigned port 7777
after bind/read/close. -/
theorem claim_port_resolver_witness :
    initPort noopEnv baseFlags = ([], some baseFlags) ∧
    initPort noopEnv { baseFlags with port := 0 } =
      ([Event.serverListen, Event.portAssigned 7777, Event.serverClosed],
        some { baseFlags with port := 7777 }) := by
  constructor
  · exact (claim_port_resolver noopEnv baseFlags).1 (by decide)
  · exact ((claim_port_resolver noopEnv { baseFlags with port := 0 }).2.1 7777
      rfl rfl (by decide)).1

end LHCli

namespace ColorContrast

/-- The failure debug string is never empty: it always contains the
" (Failed on ... )" suffix. -/
theorem createDebugString_some_ne_empty (r : AxeRule) :
    createDebugString (some r) ≠ "" := by
  intro h
  have hl := congrArg String.length h
  simp only [createDebugString, String.length_append] at hl
  have h1 : (" (Failed on " : String).length = 12 := rfl
  have h2 : (" " : String).length = 1 := rfl
  have h3 : (")" : String).length = 1 := rfl
  have h4 : ("" : String).length = 0 := rfl
  rw [h1, h2, h3, h4] at hl
  omega

/-- ColorContrast claim: `rawValue` is true iff the (defaulted-empty)
violations list has no entry with id color-contrast; the debug string is
empty exactly in that passing case; and on failure the debug string is the
violation's help text with its node count, singular "element" for exactly
one node and "elements" otherwise. -/
theorem claim_color_contrast :
    (∀ artifacts : Artifacts,
      ((audit artifacts).rawValue = true ↔
        ∀ r ∈ artifacts.Accessibility.violations.getD [], r.id ≠ "color-contrast") ∧
      ((audit artifacts).debugString = "" ↔ (audit artifacts).rawValue = true)) ∧
    (∀ (artifacts : Artifacts) (r : AxeRule),
      (artifacts.Accessibility.violations.getD []).find?
          (fun v => v.id = "color-contrast") = some r →
      (audit artifacts).debugString =
        r.help ++ " (Failed on " ++ toString r.nodes.length ++ " " ++
          (if r.nodes.length = 1 then "element" else "elements") ++ ")") := by
  constructor
  · intro artifacts
    constructor
    · simp only [audit, Option.isNone_iff_eq_none, List.find?_eq_none]
      constructor
      · intro h r hr
        simpa using h r hr
      · intro h r hr
        simpa using h r hr
    · cases hfind : (artifacts.Accessibility.violations.getD []).find?
          (fun v => v.id = "color-contrast") with
      | none => simp [audit, hfind, createDebugString]
      | some r =>
        simp only [audit, hfind, Option.isNone_some]
        constructor
        · intro h
          exact absurd h (createDebugString_some_ne_empty r)
        · intro h
          cases h
  · intro artifacts r hfind
    simp [audit, hfind, createDebugString]

/-- Witness: a single color-contrast violation with one failing node
produces the singular debug string. -/
theorem claim_color_contrast_witness :
    (audit (Artifacts.mk (Accessibility.mk
        (some [AxeRule.mk "color-contrast" "Fix contrast" [AxeNode.mk "div"]])))).debugString =
      "Fix contrast" ++ " (Failed on " ++ toString (1 : Nat) ++ " " ++
        (if (1 : Nat) = 1 then "element" else "elements") ++ ")" := by
  exact claim_color_contrast.2 _
    (AxeRule.mk "color-contrast" "Fix contrast" [AxeNode.mk "div"])
    (by simp)

end ColorContrast

namespace LHCli

/-- The empty address list resolves at once with no events. -/
theorem lighthouseRun_nil (env : Env) (m p : String) :
    lighthouseRun env m p [] = ([], [], .ok ()) := rfl

/-- When every address is truthy and the whole sequence resolves, the job
events are exactly one invocation per address, in input order, and the
address list has been fully consumed. -/
theorem lighthouseRun_ok_jobs (env : Env) (m p : String) :
    ∀ addrs : List String, (∀ a ∈ addrs, a ≠ "") →
      (lighthouseRun env m p addrs).2.2 = .ok () →
      jobEvents (lighthouseRun env m p addrs).1 = addrs.map Event.jobInvoked ∧
      (lighthouseRun env m p addrs).2.1 = [] := by
  intro addrs
  induction addrs with
  | nil => exact fun _ _ => ⟨rfl, rfl⟩
  | cons a rest ih =>
    intro hne hok
    have ha : a ≠ "" := hne a (List.mem_cons_self a rest)
    cases hj : env.job a with
    | error e => simp [lighthouseRun, ha, hj] at hok
    | ok r =>
      cases hw : env.writeRes r m p with
      | error e => simp [lighthouseRun, ha, hj, hw] at hok
      | ok r2 =>
        have hok2 : (lighthouseRun env m p rest).2.2 = .ok () := by
          simpa [lighthouseRun, ha, hj, hw] using hok
        obtain ⟨h1, h2⟩ := ih (fun x hx => hne x (List.mem_cons_of_mem a hx)) hok2
        simp only [jobEvents] at h1
        constructor
        · rcases eq_or_ne m prettyMode with hm | hm
          · subst hm
            simp [lighthouseRun, ha, hj, hw, jobEvents, isJobEvent, h1]
          · simp [lighthouseRun, ha, hj, hw, hm, jobEvents, isJobEvent, h1]
        · simp [lighthouseRun, ha, hj, hw, h2]

/-- Processing a concatenation first processes the left part; when that
part resolves the rest continues exactly as the right part alone. -/
theorem lighthouseRun_append (env : Env) (m p : String) :
    ∀ l1 l2 : List String, (∀ x ∈ l1, x ≠ "") →
      (lighthouseRun env m p l1).2.2 = .ok () →
      lighthouseRun env m p (l1 ++ l2) =
        ((lighthouseRun env m p l1).1 ++ (lighthouseRun env m p l2).1,
          (lighthouseRun env m p l2).2.1, (lighthouseRun env m p l2).2.2) := by
  intro l1
  induction l1 with
  | nil => intro l2 _ _; simp [lighthouseRun]
  | cons a rest ih =>
    intro l2 hne hok
    have ha : a ≠ "" := hne a (List.mem_cons_self a rest)
    cases hj : env.job a with
    | error e => simp [lighthouseRun, ha, hj] at hok
    | ok r =>
      cases hw : env.writeRes r m p with
      | error e => simp [lighthouseRun, ha, hj, hw] at hok
      | ok r2 =>
        have hok2 : (lighthouseRun env m p rest).2.2 = .ok () := by
          simpa [lighthouseRun, ha, hj, hw] using hok
        have hIH := ih l2 (fun x hx => hne x (List.mem_cons_of_mem a hx)) hok2
        simp [lighthouseRun, ha, hj, hw, hIH]

/-- The final address list of `lighthouseRun` is always a suffix of the
input list: the list is only ever consumed from the front by `shift()`. -/
theorem lighthouseRun_suffix (env : Env) (m p : String) :
    ∀ addrs : List String, (lighthouseRun env m p addrs).2.1 <:+ addrs := by
  intro addrs
  induction addrs with
  | nil => simp [lighthouseRun]
  | cons a rest ih =>
    by_cases ha : a = ""
    · simpa [lighthouseRun, ha] using List.suffix_cons a rest
    · cases hj : env.job a with
      | error e => simpa [lighthouseRun, ha, hj] using List.suffix_cons a rest
      | ok r =>
        cases hw : env.writeRes r m p with
        | error e => simpa [lighthouseRun, ha, hj, hw] using List.suffix_cons a rest
        | ok r2 =>
          simpa [lighthouseRun, ha, hj, hw] using ih.trans (List.suffix_cons a rest)

/-- In any non-pretty output mode, no secondary HTML write is ever
issued, whatever happens to the jobs and writes. -/
theorem htmlEvents_not_pretty (env : Env) (m p : String) (hm : m ≠ prettyMode) :
    ∀ addrs : List String, htmlEvents (lighthouseRun env m p addrs).1 = [] := by
  intro addrs
  induction addrs with
  | nil => rfl
  | cons a rest ih =>
    by_cases ha : a = ""
    · simp [lighthouseRun, ha, htmlEvents]
    · cases hj : env.job a with
      | error e => simp [lighthouseRun, ha, hj, htmlEvents]
      | ok r =>
        cases hw : env.writeRes r m p with
        | error e => simp [lighthouseRun, ha, hj, hw, htmlEvents]
        | ok r2 =>
          have := ih
          simp only [htmlEvents] at this
          simp [lighthouseRun, ha, hj, hw, hm, htmlEvents, this]

/-- In pretty mode, a resolving run issues exactly one secondary HTML
write per address, to the filename derived from the address, and the
job/write backbone alternates job then awaited write per address. -/
theorem lighthouseRun_pretty_projections (env : Env) (p : String) :
    ∀ addrs : List String, (∀ a ∈ addrs, a ≠ "") →
      (lighthouseRun env prettyMode p addrs).2.2 = .ok () →
      htmlEvents (lighthouseRun env prettyMode p addrs).1 =
        addrs.map (fun a => (a, htmlFilename a)) ∧
      coreEvents (lighthouseRun env prettyMode p addrs).1 =
        addrs.flatMap (fun a => [Event.jobInvoked a, Event.writeDone a prettyMode p]) := by
  intro addrs
  induction addrs with
  | nil => exact fun _ _ => ⟨rfl, rfl⟩
  | cons a rest ih =>
    intro hne hok
    have ha : a ≠ "" := hne a (List.mem_cons_self a rest)
    cases hj : env.job a with
    | error e => simp [lighthouseRun, ha, hj] at hok
    | ok r =>
      cases hw : env.writeRes r prettyMode p with
      | error e => simp [lighthouseRun, ha, hj, hw] at hok
      | ok r2 =>
        have hok2 : (lighthouseRun env prettyMode p rest).2.2 = .ok () := by
          simpa [lighthouseRun, ha, hj, hw] using hok
        obtain ⟨h1, h2⟩ := ih (fun x hx => hne x (List.mem_cons_of_mem a hx)) hok2
        constructor
        · simp [lighthouseRun, ha, hj, hw, htmlEvents, h1]
          simp only [htmlEvents] at h1
          simp [h1]
        · simp [lighthouseRun, ha, hj, hw, coreEvents, h2]
          simp only [coreEvents] at h2
          simp [h2]

end LHCli

namespace LHCli

/-- The SequentialRunner claim fails on an address list containing the
empty string: `[""]` is a non-empty list, yet `shift()` returns the falsy
empty string, the runner resolves immediately, and the job is never
invoked for that address. -/
theorem claim_sequential_runner_cex :
    lighthouseRun noopEnv "json" "stdout" [""] = ([], [], .ok ()) ∧
    jobEvents (lighthouseRun noopEnv "json" "stdout" [""]).1 ≠
      List.map Event.jobInvoked [""] := by
  exact ⟨rfl, by decide⟩

/-- Amended SequentialRunner claim: for every address list whose entries
are all non-empty strings, when the whole sequence resolves the job is
invoked exactly once per address, in input order, and the list is fully
consumed; the empty address list resolves immediately with no job
invocations and no events at all. -/
theorem claim_sequential_runner (env : Env) (m p : String) (addrs : List String)
    (hne : ∀ a ∈ addrs, a ≠ "")
    (hok : (lighthouseRun env m p addrs).2.2 = .ok ()) :
    jobEvents (lighthouseRun env m p addrs).1 = addrs.map Event.jobInvoked ∧
    (lighthouseRun env m p addrs).2.1 = [] ∧
    lighthouseRun env m p [] = ([], [], .ok ()) := by
  obtain ⟨h1, h2⟩ := lighthouseRun_ok_jobs env m p addrs hne hok
  exact ⟨h1, h2, rfl⟩

/-- Witness: two concrete addresses, everything succeeds — one job
invocation per address, in order. -/
theorem claim_sequential_runner_witness :
    jobEvents (lighthouseRun noopEnv "json" "stdout" ["https://a", "https://b"]).1 =
      [Event.jobInvoked "https://a", Event.jobInvoked "https://b"] := by
  have h := claim_sequential_runner noopEnv "json" "stdout" ["https://a", "https://b"]
    (by decide) rfl
  simpa using h.1

/-- The failure-propagation claim fails for the result writer's secondary
HTML invocation: in pretty mode the writer rejects on the HTML write of
address "a", yet address "b" is still processed and the sequence resolves
— the failure is discarded, not propagated. -/
theorem claim_failure_propagation_cex :
    lighthouseRun htmlFailEnv prettyMode "stdout" ["a", "b"] =
      ([Event.jobInvoked "a", Event.writeDone "a" prettyMode "stdout",
        Event.htmlWriteIssued "a" (htmlFilename "a") false,
        Event.jobInvoked "b", Event.writeDone "b" prettyMode "stdout",
        Event.htmlWriteIssued "b" (htmlFilename "b") false], [], .ok ()) ∧
    htmlFailEnv.writeRes { raw := 0 } "html" (htmlFilename "a") = .error plainErr ∧
    (Except.ok () : Except LightHouseError Unit) ≠ .error plainErr := by
  refine ⟨rfl, rfl, fun h => Except.noConfusion h⟩

/-- Amended failure-propagation claim: if the per-target job, or the
awaited primary result write, fails at address `a` after a prefix `pre`
that succeeded, then the failure propagates out of `lighthouseRun`
unmodified, the jobs invoked are exactly `pre ++ [a]`, and the remaining
addresses are never invoked (they are left, unprocessed, in the list);
only the fire-and-forget secondary HTML write escapes this rule. -/
theorem claim_failure_propagation (env : Env) (m p : String)
    (pre : List String) (a : String) (post : List String) (e : LightHouseError)
    (hne : ∀ x ∈ pre, x ≠ "") (hpre : (lighthouseRun env m p pre).2.2 = .ok ())
    (ha : a ≠ "") :
    (env.job a = .error e →
      (lighthouseRun env m p (pre ++ a :: post)).2.2 = .error e ∧
      jobEvents (lighthouseRun env m p (pre ++ a :: post)).1 =
        (pre ++ [a]).map Event.jobInvoked ∧
      (lighthouseRun env m p (pre ++ a :: post)).2.1 = post) ∧
    (∀ r, env.job a = .ok r → env.writeRes r m p = .error e →
      (lighthouseRun env m p (pre ++ a :: post)).2.2 = .error e ∧
      jobEvents (lighthouseRun env m p (pre ++ a :: post)).1 =
        (pre ++ [a]).map Event.jobInvoked ∧
      (lighthouseRun env m p (pre ++ a :: post)).2.1 = post) := by
  have happ := lighthouseRun_append env m p pre (a :: post) hne hpre
  have h1 := (lighthouseRun_ok_jobs env m p pre hne hpre).1
  simp only [jobEvents] at h1
  constructor
  · intro hj
    have hstep : lighthouseRun env m p (a :: post) =
        ([Event.jobInvoked a], post, .error e) := by
      simp [lighthouseRun, ha, hj]
    rw [happ, hstep]
    refine ⟨rfl, ?_, rfl⟩
    simp only [jobEvents]
    simp [List.filter_append, isJobEvent, h1]
  · intro r hj hw
    have hstep : lighthouseRun env m p (a :: post) =
        ([Event.jobInvoked a], post, .error e) := by
      simp [lighthouseRun, ha, hj, hw]
    rw [happ, hstep]
    refine ⟨rfl, ?_, rfl⟩
    simp only [jobEvents]
    simp [List.filter_append, isJobEvent, h1]

/-- Witness: job fails on the second of three addresses — error propagates,
third address never invoked and left in the list. -/
theorem claim_failure_propagation_witness :
    (lighthouseRun jobFailEnv "json" "stdout" (["ok1"] ++ "bad" :: ["ok2"])).2.2 =
      .error plainErr ∧
    jobEvents (lighthouseRun jobFailEnv "json" "stdout" (["ok1"] ++ "bad" :: ["ok2"])).1 =
      [Event.jobInvoked "ok1", Event.jobInvoked "bad"] ∧
    (lighthouseRun jobFailEnv "json" "stdout" (["ok1"] ++ "bad" :: ["ok2"])).2.1 =
      ["ok2"] := by
  have h := (claim_failure_propagation jobFailEnv "json" "stdout"
    ["ok1"] "bad" ["ok2"] plainErr (by decide) rfl (by decide)).1 rfl
  exact ⟨h.1, by simpa using h.2.1, h.2.2⟩

/-- HTML secondary copy claim: in pretty mode a resolving run issues one
secondary HTML write per address to the deterministic filename derived from
the address; the job/write backbone shows the next job starts only after
the previous address's awaited primary write completed; in any non-pretty
mode no secondary HTML write is ever issued. -/
theorem claim_html_copy (env : Env) (p : String) (addrs : List String)
    (hne : ∀ a ∈ addrs, a ≠ "")
    (hok : (lighthouseRun env prettyMode p addrs).2.2 = .ok ()) :
    htmlEvents (lighthouseRun env prettyMode p addrs).1 =
      addrs.map (fun a => (a, htmlFilename a)) ∧
    coreEvents (lighthouseRun env prettyMode p addrs).1 =
      addrs.flatMap (fun a => [Event.jobInvoked a, Event.writeDone a prettyMode p]) ∧
    (∀ m addrs2, m ≠ prettyMode → htmlEvents (lighthouseRun env m p addrs2).1 = []) ∧
    (∀ a, htmlFilename a = "./" ++ getFilenamePrefixFor a ++ ".report.html") := by
  obtain ⟨h1, h2⟩ := lighthouseRun_pretty_projections env p addrs hne hok
  exact ⟨h1, h2, fun m addrs2 hm => htmlEvents_not_pretty env m p hm addrs2,
    fun a => rfl⟩

/-- Witness: two addresses in pretty mode — one HTML copy per address at
the derived filename, and job/write strictly alternating. -/
theorem claim_html_copy_witness :
    htmlEvents (lighthouseRun noopEnv prettyMode "stdout" ["x", "y"]).1 =
      [("x", htmlFilename "x"), ("y", htmlFilename "y")] ∧
    coreEvents (lighthouseRun noopEnv prettyMode "stdout" ["x", "y"]).1 =
      [Event.jobInvoked "x", Event.writeDone "x" prettyMode "stdout",
       Event.jobInvoked "y", Event.writeDone "y" prettyMode "stdout"] := by
  have h := claim_html_copy noopEnv "stdout" ["x", "y"] (by decide) rfl
  exact ⟨by simpa using h.1, by simpa using h.2.1⟩

/-- The configuration-immutability claim fails for the address list: a run
over one address leaves the (shift-mutated) list empty, not equal to its
initial value. -/
theorem claim_config_immutable_cex :
    lighthouseRun noopEnv "json" "stdout" ["https://a"] =
      ([Event.jobInvoked "https://a", Event.writeDone "https://a" "json" "stdout"],
        [], .ok ()) ∧
    (["https://a"] : List String) ≠ [] := by
  exact ⟨rfl, by decide⟩

/-- Amended frame claim: after the run starts the pipeline writes exactly
two things into the run configuration: the port field — written once by
`initPort`, only when the requested port was 0, leaving every other field
unchanged (a second resolution over the already-written positive port is a
no-op with no I/O) — and the address list, which `lighthouseRun` consumes
destructively from the front (its final value is always a suffix of the
initial one). -/
theorem claim_config_immutable (env : Env) (f : Flags) :
    (f.port ≠ 0 → initPort env f = ([], some f)) ∧
    (∀ q, f.port = 0 → env.allocPort = some q →
      (initPort env f).2 = some { f with port := q }) ∧
    (∀ q, q ≠ 0 → initPort env { f with port := q } = ([], some { f with port := q })) ∧
    (∀ m p addrs, (lighthouseRun env m p addrs).2.1 <:+ addrs) := by
  refine ⟨?_, ?_, ?_, fun m p addrs => lighthouseRun_suffix env m p addrs⟩
  · intro h
    simp [initPort, h]
  · intro q h0 halloc
    simp [initPort, h0, halloc]
  · intro q hq
    simp [initPort, hq]

/-- Witness: port 9222 is left untouched; resolving a second time after
the one-time write is a no-op; a consumed list is a suffix of the input. -/
theorem claim_config_immutable_witness :
    initPort noopEnv baseFlags = ([], some baseFlags) ∧
    initPort noopEnv { baseFlags with port := 7777 } =
      ([], some { baseFlags with port := 7777 }) ∧
    (lighthouseRun noopEnv "json" "stdout" ["https://a"]).2.1 <:+ ["https://a"] := by
  have h := claim_config_immutable noopEnv baseFlags
  exact ⟨h.1 (by decide), h.2.2.1 7777 (by decide),
    (claim_config_immutable noopEnv baseFlags).2.2.2 "json" "stdout" ["https://a"]⟩

end LHCli

namespace LHCli

/-- `initPort` emits only server-probing events: never a cleanup drain, an
exit, or a registry registration. -/
theorem mem_initPort_trace (env : Env) (f : Flags) :
    ∀ e ∈ (initPort env f).1, isRunAllEvent e = false ∧ isExitedEvent e = false ∧
      e ≠ Event.cleanupRegistered := by
  intro e he
  unfold initPort at he
  rcases eq_or_ne f.port 0 with h0 | h0
  · rw [if_neg (by simp [h0])] at he
    cases halloc : env.allocPort with
    | some q =>
      rw [halloc] at he
      simp only [List.mem_cons, List.not_mem_nil, or_false] at he
      rcases he with h | h | h <;> subst h <;> exact ⟨rfl, rfl, by simp⟩
    | none =>
      rw [halloc] at he
      simp only [List.mem_cons, List.not_mem_nil, or_false] at he
      subst he
      exact ⟨rfl, rfl, by simp⟩
  · rw [if_pos h0] at he
    simp at he

/-- `lighthouseRun` emits only job, primary-write and HTML-write events. -/
theorem mem_lighthouseRun_trace (env : Env) (m p : String) :
    ∀ addrs : List String, ∀ e ∈ (lighthouseRun env m p addrs).1,
      isRunAllEvent e = false ∧ isExitedEvent e = false ∧
      e ≠ Event.cleanupRegistered := by
  intro addrs
  induction addrs with
  | nil => intro e he; simp [lighthouseRun] at he
  | cons a rest ih =>
    intro e he
    by_cases ha : a = ""
    · simp [lighthouseRun, ha] at he
    · cases hj : env.job a with
      | error e2 =>
        have htr : (lighthouseRun env m p (a :: rest)).1 = [Event.jobInvoked a] := by
          simp [lighthouseRun, ha, hj]
        rw [htr] at he
        simp only [List.mem_cons, List.not_mem_nil, or_false] at he
        subst he
        exact ⟨rfl, rfl, by simp⟩
      | ok r =>
        cases hw : env.writeRes r m p with
        | error e2 =>
          have htr : (lighthouseRun env m p (a :: rest)).1 = [Event.jobInvoked a] := by
            simp [lighthouseRun, ha, hj, hw]
          rw [htr] at he
          simp only [List.mem_cons, List.not_mem_nil, or_false] at he
          subst he
          exact ⟨rfl, rfl, by simp⟩
        | ok r2 =>
          have htr : (lighthouseRun env m p (a :: rest)).1 =
              Event.jobInvoked a :: Event.writeDone a m p ::
                ((if m = prettyMode then
                    [Event.htmlWriteIssued a (htmlFilename a)
                      (env.writeRes r2 "html" (htmlFilename a)).isOk]
                  else []) ++ (lighthouseRun env m p rest).1) := by
            simp [lighthouseRun, ha, hj, hw]
          rw [htr] at he
          rcases List.mem_cons.mp he with h | he2
          · subst h; exact ⟨rfl, rfl, by simp⟩
          rcases List.mem_cons.mp he2 with h | he3
          · subst h; exact ⟨rfl, rfl, by simp⟩
          rcases List.mem_append.mp he3 with h | h
          · rcases eq_or_ne m prettyMode with hm | hm
            · rw [if_pos hm] at h
              simp only [List.mem_cons, List.not_mem_nil, or_false] at h
              subst h
              exact ⟨rfl, rfl, by simp⟩
            · rw [if_neg hm] at h
              simp at h
          · exact ih e h

end LHCli

namespace LHCli

/-- `launchChromeAndRun` never drains the registry (`runAllInvoked`) and
never exits the process itself. -/
theorem mem_launch_trace (env : Env) (f : Flags) (urls : List String) :
    ∀ e ∈ (launchChromeAndRun env f urls).1,
      isRunAllEvent e = false ∧ isExitedEvent e = false := by
  intro e he
  have hpre : ∀ x ∈ (initPort env f).1 ++
      [Event.cleanupRegistered, Event.probe env.debuggerReady],
      isRunAllEvent x = false ∧ isExitedEvent x = false := by
    intro x hx
    rcases List.mem_append.mp hx with h | h
    · exact ⟨(mem_initPort_trace env f x h).1, (mem_initPort_trace env f x h).2.1⟩
    · simp only [List.mem_cons, List.not_mem_nil, or_false] at h
      rcases h with h | h <;> subst h <;> exact ⟨rfl, rfl⟩
  have hlr : ∀ (m p : String), ∀ x ∈ (lighthouseRun env m p urls).1,
      isRunAllEvent x = false ∧ isExitedEvent x = false := by
    intro m p x hx
    have := mem_lighthouseRun_trace env m p urls x hx
    exact ⟨this.1, this.2.1⟩
  simp only [launchChromeAndRun] at he
  split at he
  · dsimp only at he
    exact ⟨(mem_initPort_trace env f e he).1, (mem_initPort_trace env f e he).2.1⟩
  · rename_i f1 heq
    by_cases hd : env.debuggerReady = true
    · rw [if_pos hd] at he
      split at he <;> dsimp only at he
      · rcases List.mem_append.mp he with h | h
        · exact hpre e h
        · exact hlr _ _ e h
      · rcases List.mem_append.mp he with h | h
        · rcases List.mem_append.mp h with h2 | h2
          · exact hpre e h2
          · exact hlr _ _ e h2
        · simp only [List.mem_cons, List.not_mem_nil, or_false] at h
          subst h
          exact ⟨rfl, rfl⟩
    · rw [if_neg hd] at he
      split at he
      · dsimp only at he
        exact hpre e he
      · split at he <;> dsimp only at he
        · rcases List.mem_append.mp he with h | h
          · rcases List.mem_append.mp h with h2 | h2
            · exact hpre e h2
            · simp only [List.mem_cons, List.not_mem_nil, or_false] at h2
              subst h2
              exact ⟨rfl, rfl⟩
          · exact hlr _ _ e h
        · rcases List.mem_append.mp he with h | h
          · rcases List.mem_append.mp h with h2 | h2
            · rcases List.mem_append.mp h2 with h3 | h3
              · exact hpre e h3
              · simp only [List.mem_cons, List.not_mem_nil, or_false] at h3
                subst h3
                exact ⟨rfl, rfl⟩
            · exact hlr _ _ e h2
          · simp only [List.mem_cons, List.not_mem_nil, or_false] at h
            subst h
            exact ⟨rfl, rfl⟩

/-- A trace with no `runAllInvoked` events has `countRunAll` zero. -/
theorem countRunAll_nil_of (tr : List Event)
    (h : ∀ e ∈ tr, isRunAllEvent e = false) : countRunAll tr = 0 := by
  simp only [countRunAll, List.length_eq_zero]
  rw [List.filter_eq_nil_iff]
  intro a ha
  simp [h a ha]

/-- An `exited` event inside a `settleTail` carries `handleError` of some
error: the generic or the protocol-timeout code. -/
theorem settleTail_exited (o : Except LightHouseError Unit) (c : Nat)
    (h : Event.exited c ∈ settleTail o) :
    c = RUNTIME_ERROR_CODE ∨ c = PROTOCOL_TIMEOUT_EXIT_CODE := by
  cases o with
  | ok u => simp [settleTail] at h
  | error e =>
    simp only [settleTail, List.mem_cons, List.not_mem_nil, or_false] at h
    injection h with h2
    rw [h2]
    exact handleError_cases e

/-- An `errored` outcome of a settled pipeline carries `handleError` of
some error. -/
theorem settleOutcome_errored (o : Except LightHouseError Unit) (c : Nat)
    (h : settleOutcome o = .errored c) :
    c = RUNTIME_ERROR_CODE ∨ c = PROTOCOL_TIMEOUT_EXIT_CODE := by
  cases o with
  | ok u => simp [settleOutcome] at h
  | error e =>
    simp only [settleOutcome, Outcome.errored.injEq] at h
    rw [← h]
    exact handleError_cases e

end LHCli

namespace LHCli

/-- The interrupt branch of the race, in full: when a SIGINT is delivered
after the listener is installed (at or after `t1.length` events) and before
the pipeline settles, the run drains the registry over whatever had been
registered so far and exits 130. -/
theorem run_launch_interrupt (env : Env) (f : Flags) (urls : List String)
    (t1 : List Event) (f1 : Flags) (t : Nat)
    (hip : initPort env f = (t1, some f1)) (hskip : f1.skipAutolaunch = false)
    (hs : env.sigintAt = some t) (hle : t1.length ≤ t)
    (hbefore : (launchChromeAndRun env f1 urls).2 = none ∨
      t < t1.length + 1 + (launchChromeAndRun env f1 urls).1.length) :
    run env f urls =
      ((t1 ++ [Event.sigintRegistered] ++ (launchChromeAndRun env f1 urls).1).take t ++
        [Event.runAllInvoked (((t1 ++ [Event.sigintRegistered] ++
            (launchChromeAndRun env f1 urls).1).take t).count Event.cleanupRegistered),
         Event.exited ERROR_EXIT_CODE], .interrupted) := by
  have hip1 : (initPort env f).1 = t1 := by rw [hip]
  have hip2 : (initPort env f).2 = some f1 := by rw [hip]
  simp only [run, hip1, hip2, hskip, Bool.false_eq_true, if_false]
  simp only [runLaunchPath, hs]
  cases hres : (launchChromeAndRun env f1 urls).2 with
  | none =>
    rw [if_neg (Nat.not_lt.mpr hle)]
    simp [interruptedResult]
  | some s =>
    rcases hbefore with h | hlt
    · rw [hres] at h
      cases h
    · dsimp only
      rw [if_neg (Nat.not_lt.mpr hle), if_pos hlt]
      simp [interruptedResult]

/-- The settled branch of the race, in full: when the pipeline settles and
no SIGINT is delivered before the settle point, the pipeline's outcome
decides the run. -/
theorem run_launch_settled (env : Env) (f : Flags) (urls : List String)
    (t1 : List Event) (f1 : Flags)
    (s : Flags × List String × Except LightHouseError Unit)
    (hip : initPort env f = (t1, some f1)) (hskip : f1.skipAutolaunch = false)
    (hres : (launchChromeAndRun env f1 urls).2 = some s)
    (hafter : env.sigintAt = none ∨ (∀ t, env.sigintAt = some t →
      t1.length + 1 + (launchChromeAndRun env f1 urls).1.length ≤ t)) :
    run env f urls = (t1 ++ [Event.sigintRegistered] ++
      (launchChromeAndRun env f1 urls).1 ++ settleTail s.2.2, settleOutcome s.2.2) := by
  have hip1 : (initPort env f).1 = t1 := by rw [hip]
  have hip2 : (initPort env f).2 = some f1 := by rw [hip]
  simp only [run, hip1, hip2, hskip, Bool.false_eq_true, if_false]
  simp only [runLaunchPath, hres]
  cases hsig : env.sigintAt with
  | none => simp
  | some t =>
    rcases hafter with h | hall
    · rw [h] at hsig
      cases hsig
    · have hge := hall t hsig
      have h1 : ¬ t < t1.length := by omega
      have h2 : ¬ t < t1.length + 1 + (launchChromeAndRun env f1 urls).1.length := by
        omega
      dsimp only
      rw [if_neg h1, if_neg h2]

/-- Every `process.exit` recorded in a run carries the generic code, the
protocol-timeout code, or the interrupt code. -/
theorem run_exited_codes (env : Env) (f : Flags) (urls : List String) (c : Nat)
    (h : Event.exited c ∈ (run env f urls).1) :
    c = RUNTIME_ERROR_CODE ∨ c = PROTOCOL_TIMEOUT_EXIT_CODE ∨ c = ERROR_EXIT_CODE := by
  have hip := mem_initPort_trace env f
  have hskiptr : ∀ f1 : Flags,
      Event.exited c ∈ (initPort env f).1 ++
        (lighthouseRun env f1.output f1.outputPath urls).1 ++
        settleTail (lighthouseRun env f1.output f1.outputPath urls).2.2 →
      c = RUNTIME_ERROR_CODE ∨ c = PROTOCOL_TIMEOUT_EXIT_CODE ∨ c = ERROR_EXIT_CODE := by
    intro f1 hx
    rcases List.mem_append.mp hx with h3 | h3
    · rcases List.mem_append.mp h3 with h4 | h4
      · have := hip _ h4
        simp [isExitedEvent] at this
      · have := mem_lighthouseRun_trace env f1.output f1.outputPath urls _ h4
        simp [isExitedEvent] at this
    · rcases settleTail_exited _ _ h3 with h4 | h4
      · exact Or.inl h4
      · exact Or.inr (Or.inl h4)
  have hlaunchtr : ∀ f1 : Flags,
      Event.exited c ∈ (initPort env f).1 ++ [Event.sigintRegistered] ++
        (launchChromeAndRun env f1 urls).1 → False := by
    intro f1 hx
    rcases List.mem_append.mp hx with h5 | h5
    · rcases List.mem_append.mp h5 with h6 | h6
      · have := hip _ h6
        simp [isExitedEvent] at this
      · simp at h6
    · have := mem_launch_trace env f1 urls _ h5
      simp [isExitedEvent] at this
  have hinttr : ∀ (f1 : Flags) (t : Nat),
      Event.exited c ∈ (interruptedResult (((initPort env f).1 ++
        [Event.sigintRegistered] ++ (launchChromeAndRun env f1 urls).1).take t)).1 →
      c = ERROR_EXIT_CODE := by
    intro f1 t hx
    simp only [interruptedResult] at hx
    rcases List.mem_append.mp hx with h3 | h3
    · exact absurd (List.take_subset _ _ h3) (fun h4 => hlaunchtr f1 h4)
    · simp only [List.mem_cons, List.not_mem_nil, or_false] at h3
      rcases h3 with h3 | h3
      · cases h3
      · injection h3
  simp only [run] at h
  split at h
  · split at h <;> (try dsimp only at h)
    · have := hip _ (List.take_subset _ _ h)
      simp [isExitedEvent] at this
    · have := hip _ h
      simp [isExitedEvent] at this
  · rename_i f1 heq
    split at h
    · simp only [runSkipPath] at h
      split at h
      · split at h <;> (try dsimp only at h)
        · exact hskiptr f1 (List.take_subset _ _ h)
        · exact hskiptr f1 h
      · try dsimp only at h
        exact hskiptr f1 h
    · simp only [runLaunchPath] at h
      split at h
      · split at h
        · split at h <;> (try dsimp only at h)
          · have := hip _ (List.take_subset _ _ h)
            simp [isExitedEvent] at this
          · rename_i t _ _
            exact Or.inr (Or.inr (hinttr f1 t h))
        · try dsimp only at h
          exact absurd h (fun h4 => hlaunchtr f1 h4)
      · split at h
        · split at h
          · try dsimp only at h
            have := hip _ (List.take_subset _ _ h)
            simp [isExitedEvent] at this
          · split at h <;> (try dsimp only at h)
            · rename_i t _ _ _
              exact Or.inr (Or.inr (hinttr f1 t h))
            · rcases List.mem_append.mp h with h3 | h3
              · exact absurd h3 (fun h4 => hlaunchtr f1 (by simpa using h4))
              · rcases settleTail_exited _ _ h3 with h4 | h4
                · exact Or.inl h4
                · exact Or.inr (Or.inl h4)
        · try dsimp only at h
          rcases List.mem_append.mp h with h3 | h3
          · exact absurd h3 (fun h4 => hlaunchtr f1 (by simpa using h4))
          · rcases settleTail_exited _ _ h3 with h4 | h4
            · exact Or.inl h4
            · exact Or.inr (Or.inl h4)

/-- Every `errored` run outcome carries the generic or protocol-timeout
code. -/
theorem run_errored_codes (env : Env) (f : Flags) (urls : List String) (c : Nat)
    (h : (run env f urls).2 = .errored c) :
    c = RUNTIME_ERROR_CODE ∨ c = PROTOCOL_TIMEOUT_EXIT_CODE := by
  simp only [run] at h
  split at h
  · split at h <;> dsimp only at h <;> cases h
  · rename_i f1 heq
    split at h
    · simp only [runSkipPath] at h
      split at h
      · split at h <;> (try dsimp only at h)
        · cases h
        · exact settleOutcome_errored _ _ h
      · try dsimp only at h
        exact settleOutcome_errored _ _ h
    · simp only [runLaunchPath] at h
      split at h
      · split at h
        · split at h <;> (try dsimp only at h)
          · cases h
          · simp [interruptedResult] at h
        · try dsimp only at h
          cases h
      · split at h
        · split at h
          · try dsimp only at h
            cases h
          · split at h <;> (try dsimp only at h)
            · simp [interruptedResult] at h
            · exact settleOutcome_errored _ _ h
        · try dsimp only at h
          exact settleOutcome_errored _ _ h

end LHCli

namespace LHCli

/-- On the success path the launcher kill is invoked directly by the final
`.then(() => launcher.kill())` of the chain. -/
theorem launch_ok_killDirect (env : Env) (f : Flags) (urls : List String)
    (s : Flags × List String × Except LightHouseError Unit)
    (h : (launchChromeAndRun env f urls).2 = some s) (hok : s.2.2 = .ok ()) :
    Event.killDirect ∈ (launchChromeAndRun env f urls).1 := by
  cases hip : (initPort env f).2 with
  | none =>
    have h2 : (launchChromeAndRun env f urls).2 = none := by
      simp [launchChromeAndRun, hip]
    rw [h2] at h
    cases h
  | some f1 =>
    by_cases hd : env.debuggerReady = true
    · cases ho : (lighthouseRun env f1.output f1.outputPath urls).2.2 with
      | error e =>
        have h2 : (launchChromeAndRun env f urls).2 =
            some (f1, (lighthouseRun env f1.output f1.outputPath urls).2.1,
              .error e) := by
          simp [launchChromeAndRun, hip, hd, ho]
        rw [h2] at h
        have h3 := Option.some.inj h
        subst h3
        simp at hok
      | ok u =>
        simp [launchChromeAndRun, hip, hd, ho]
    · cases hl : env.launchResult with
      | error e =>
        have h2 : (launchChromeAndRun env f urls).2 = some (f1, urls, .error e) := by
          simp [launchChromeAndRun, hip, hd, hl]
        rw [h2] at h
        have h3 := Option.some.inj h
        subst h3
        simp at hok
      | ok u =>
        cases ho : (lighthouseRun env f1.output f1.outputPath urls).2.2 with
        | error e =>
          have h2 : (launchChromeAndRun env f urls).2 =
              some (f1, (lighthouseRun env f1.output f1.outputPath urls).2.1,
                .error e) := by
            simp [launchChromeAndRun, hip, hd, hl, ho]
          rw [h2] at h
          have h3 := Option.some.inj h
          subst h3
          simp at hok
        | ok u2 =>
          simp [launchChromeAndRun, hip, hd, hl, ho]

/-- The cancellation-race claim fails on listener timing: with requested
port 0, a SIGINT delivered while the ephemeral-port probe is still pending
(state INIT/RESOLVING_PORT) finds no listener — `process.on('SIGINT',...)`
is installed only inside the non-skip branch after the outer `initPort`
resolves — so the process dies by default signal disposition: no
`Interrupted` outcome, no cleanup drain, no exit-130 path of this module. -/
theorem claim_cancellation_race_cex :
    run { noopEnv with sigintAt := some 0 } { baseFlags with port := 0 }
      ["https://example.com"] = ([], .killedBySignal) ∧
    Outcome.killedBySignal ≠ Outcome.interrupted ∧
    countRunAll [] = 0 := ⟨rfl, by decide, rfl⟩

/-- Amended cancellation-race claim: in an auto-launch run, once the
interrupt listener is installed — which happens right after the outer port
resolution, not at INIT — a SIGINT delivered before the pipeline settles
yields outcome `Interrupted`: the registry is drained over everything
registered so far and awaited, then `process.exit(130)`, regardless of
pipeline progress; if the pipeline settles first, its result alone decides
the outcome and trace and a later interrupt has no effect. -/
theorem claim_cancellation_race (env : Env) (f : Flags) (urls : List String)
    (t1 : List Event) (f1 : Flags)
    (hip : initPort env f = (t1, some f1)) (hskip : f1.skipAutolaunch = false) :
    (∀ t, env.sigintAt = some t → t1.length ≤ t →
      ((launchChromeAndRun env f1 urls).2 = none ∨
        t < t1.length + 1 + (launchChromeAndRun env f1 urls).1.length) →
      run env f urls =
        ((t1 ++ [Event.sigintRegistered] ++ (launchChromeAndRun env f1 urls).1).take t ++
          [Event.runAllInvoked (((t1 ++ [Event.sigintRegistered] ++
              (launchChromeAndRun env f1 urls).1).take t).count Event.cleanupRegistered),
           Event.exited ERROR_EXIT_CODE], .interrupted)) ∧
    (∀ s, (launchChromeAndRun env f1 urls).2 = some s →
      (env.sigintAt = none ∨ (∀ t, env.sigintAt = some t →
        t1.length + 1 + (launchChromeAndRun env f1 urls).1.length ≤ t)) →
      run env f urls = (t1 ++ [Event.sigintRegistered] ++
        (launchChromeAndRun env f1 urls).1 ++ settleTail s.2.2, settleOutcome s.2.2)) := by
  exact ⟨fun t hs hle hb => run_launch_interrupt env f urls t1 f1 t hip hskip hs hle hb,
    fun s hres hafter => run_launch_settled env f urls t1 f1 s hip hskip hres hafter⟩

/-- Witness: SIGINT one event after the listener is up, while the pipeline
is still running — cleanup (zero actions registered yet) is drained and the
process exits 130 with outcome Interrupted. -/
theorem claim_cancellation_race_witness :
    run { noopEnv with sigintAt := some 1 } baseFlags ["https://example.com"] =
      ([Event.sigintRegistered, Event.runAllInvoked 0, Event.exited ERROR_EXIT_CODE],
        .interrupted) := by
  have h := (claim_cancellation_race { noopEnv with sigintAt := some 1 } baseFlags
    ["https://example.com"] [] baseFlags rfl rfl).1 1 rfl (by decide)
    (Or.inr (by decide))
  exact h.trans (by decide)

/-- The cleanup-on-every-path claim fails on the success path: the
registered kill action is never attempted — the run drains the registry
only on the interrupt branch; on success the launcher is killed directly,
outside the registry. -/
theorem claim_cleanup_every_path_cex :
    run noopEnv baseFlags ["https://example.com"] =
      ([Event.sigintRegistered, Event.cleanupRegistered, Event.probe true,
        Event.jobInvoked "https://example.com",
        Event.writeDone "https://example.com" "json" "stdout", Event.killDirect],
       .success) ∧
    countRunAll [Event.sigintRegistered, Event.cleanupRegistered, Event.probe true,
      Event.jobInvoked "https://example.com",
      Event.writeDone "https://example.com" "json" "stdout", Event.killDirect] = 0 ∧
    [Event.sigintRegistered, Event.cleanupRegistered, Event.probe true,
      Event.jobInvoked "https://example.com",
      Event.writeDone "https://example.com" "json" "stdout",
      Event.killDirect].count Event.cleanupRegistered = 1 := ⟨rfl, rfl, rfl⟩

/-- Amended cleanup claim: registered actions are attempted — exactly once,
all of them, awaited before `process.exit(130)` — only on the interruption
path; on a settled pipeline (success or classified error) the registry is
never drained, and on success the launcher is killed directly instead. -/
theorem claim_cleanup_every_path (env : Env) (f : Flags) (urls : List String)
    (t1 : List Event) (f1 : Flags)
    (hip : initPort env f = (t1, some f1)) (hskip : f1.skipAutolaunch = false) :
    (∀ t, env.sigintAt = some t → t1.length ≤ t →
      ((launchChromeAndRun env f1 urls).2 = none ∨
        t < t1.length + 1 + (launchChromeAndRun env f1 urls).1.length) →
      countRunAll ((t1 ++ [Event.sigintRegistered] ++
        (launchChromeAndRun env f1 urls).1).take t) = 0 ∧
      run env f urls =
        ((t1 ++ [Event.sigintRegistered] ++ (launchChromeAndRun env f1 urls).1).take t ++
          [Event.runAllInvoked (((t1 ++ [Event.sigintRegistered] ++
              (launchChromeAndRun env f1 urls).1).take t).count Event.cleanupRegistered),
           Event.exited ERROR_EXIT_CODE], .interrupted)) ∧
    (∀ s, (launchChromeAndRun env f1 urls).2 = some s →
      (env.sigintAt = none ∨ (∀ t, env.sigintAt = some t →
        t1.length + 1 + (launchChromeAndRun env f1 urls).1.length ≤ t)) →
      countRunAll (run env f urls).1 = 0 ∧
      (s.2.2 = .ok () → Event.killDirect ∈ (run env f urls).1)) := by
  have hip1 : (initPort env f).1 = t1 := by rw [hip]
  have hnorm : ∀ e ∈ t1 ++ [Event.sigintRegistered] ++
      (launchChromeAndRun env f1 urls).1, isRunAllEvent e = false := by
    intro e he
    rcases List.mem_append.mp he with h2 | h2
    · rcases List.mem_append.mp h2 with h3 | h3
      · exact (mem_initPort_trace env f e (hip1 ▸ h3)).1
      · simp only [List.mem_cons, List.not_mem_nil, or_false] at h3
        subst h3
        rfl
    · exact (mem_launch_trace env f1 urls e h2).1
  constructor
  · intro t hs hle hb
    refine ⟨countRunAll_nil_of _ (fun e he => hnorm e (List.take_subset _ _ he)), ?_⟩
    exact run_launch_interrupt env f urls t1 f1 t hip hskip hs hle hb
  · intro s hres hafter
    have heq := run_launch_settled env f urls t1 f1 s hip hskip hres hafter
    constructor
    · rw [heq]
      apply countRunAll_nil_of
      intro e he
      rcases List.mem_append.mp he with h2 | h2
      · exact hnorm e h2
      · cases ho : s.2.2 with
        | ok u =>
          rw [ho] at h2
          simp [settleTail] at h2
        | error e2 =>
          rw [ho] at h2
          simp only [settleTail, List.mem_cons, List.not_mem_nil, or_false] at h2
          subst h2
          rfl
    · intro hok
      rw [heq]
      exact List.mem_append.mpr (Or.inl (List.mem_append.mpr
        (Or.inr (launch_ok_killDirect env f1 urls s hres hok))))

/-- Witness: a successful auto-launch run — one registration, zero registry
drains, and a direct launcher kill in the trace. -/
theorem claim_cleanup_every_path_witness :
    countRunAll (run noopEnv baseFlags ["https://example.com"]).1 = 0 ∧
    Event.killDirect ∈ (run noopEnv baseFlags ["https://example.com"]).1 := by
  have h := (claim_cleanup_every_path noopEnv baseFlags ["https://example.com"] []
    baseFlags rfl rfl).2 (baseFlags, ([] : List String), Except.ok ()) rfl (Or.inl rfl)
  exact ⟨h.1, h.2 rfl⟩

/-- ErrorClassifier claim: fixed-priority marker dispatch — ECONNREFUSED
(whatever other data the error carries) exits 1 as ConnectionRefused,
otherwise CRI_TIMEOUT exits 67 as ProtocolTimeout, anything else exits 1 as
RuntimeError; the interrupt exit code constant is 130; and a whole run only
ever produces the exit codes 1, 67 and 130 (0 being the implicit success). -/
theorem claim_error_classifier :
    (∀ err : LightHouseError,
      (err.code = some "ECONNREFUSED" →
        classify err = .connectionRefused ∧ handleError err = RUNTIME_ERROR_CODE) ∧
      (err.code ≠ some "ECONNREFUSED" → err.code = some "CRI_TIMEOUT" →
        classify err = .protocolTimeout ∧
        handleError err = PROTOCOL_TIMEOUT_EXIT_CODE) ∧
      (err.code ≠ some "ECONNREFUSED" → err.code ≠ some "CRI_TIMEOUT" →
        classify err = .runtimeError ∧ handleError err = RUNTIME_ERROR_CODE) ∧
      handleError err = categoryExitCode (classify err)) ∧
    (RUNTIME_ERROR_CODE = 1 ∧ PROTOCOL_TIMEOUT_EXIT_CODE = 67 ∧
      ERROR_EXIT_CODE = 130) ∧
    (∀ env f urls c, (run env f urls).2 = .errored c → c = 1 ∨ c = 67) ∧
    (∀ env f urls c, Event.exited c ∈ (run env f urls).1 →
      c = 1 ∨ c = 67 ∨ c = 130) := by
  refine ⟨?_, ⟨rfl, rfl, rfl⟩, ?_, ?_⟩
  · intro err
    refine ⟨fun h => ?_, fun h1 h2 => ?_, fun h1 h2 => ?_, ?_⟩
    · simp [classify, handleError, h, showConnectionError]
    · simp [classify, handleError, h1, h2, showProtocolTimeoutError]
    · simp [classify, handleError, h1, h2, showRuntimeError]
    · by_cases hc1 : err.code = some "ECONNREFUSED"
      · simp [classify, handleError, categoryExitCode, hc1, showConnectionError]
      · by_cases hc2 : err.code = some "CRI_TIMEOUT"
        · simp [classify, handleError, categoryExitCode, hc1, hc2,
            showProtocolTimeoutError]
        · simp [classify, handleError, categoryExitCode, hc1, hc2, showRuntimeError]
  · intro env f urls c h
    have := run_errored_codes env f urls c h
    simpa [RUNTIME_ERROR_CODE, PROTOCOL_TIMEOUT_EXIT_CODE] using this
  · intro env f urls c h
    have := run_exited_codes env f urls c h
    simpa [RUNTIME_ERROR_CODE, PROTOCOL_TIMEOUT_EXIT_CODE, ERROR_EXIT_CODE] using this

/-- Witness: a connection-refused error carrying a stack still classifies
as ConnectionRefused with exit 1; a concrete failing run exits 1, which is
among the produced codes. -/
theorem claim_error_classifier_witness :
    classify (LightHouseError.mk (some "ECONNREFUSED") "connect refused"
      (some "at probe")) = .connectionRefused ∧
    handleError (LightHouseError.mk (some "ECONNREFUSED") "connect refused"
      (some "at probe")) = RUNTIME_ERROR_CODE ∧
    ((1 : Nat) = 1 ∨ (1 : Nat) = 67 ∨ (1 : Nat) = 130) := by
  have h1 := (claim_error_classifier.1
    ⟨some "ECONNREFUSED", "connect refused", some "at probe"⟩).1 rfl
  have h2 := claim_error_classifier.2.2.2 jobFailEnv skipFlags ["bad"] 1 (by decide)
  exact ⟨h1.1, h1.2, h2⟩

end LHCli
